import Mathlib

/-!
Verification of `spherical_objects.py`: a fisheye-lens projection model
(cartesian pixel ↔ unit-sphere point) together with a bounding-box model
(`CartesianBbox` in xyxy / xywh / cxcywh encodings, `SphericalBbox`, and
`bbox_to_spherical`).

Modelling conventions:
* Python floats are modelled as real numbers (`ℝ`).
* Python `assert` failures and raised exceptions (`ValueError`, including the
  "math domain error" raised by `math.acos` outside `[-1, 1]`) are modelled
  with `Except Err`.
* Python `//` (floor division) on coordinates is modelled by `Int.floor` of
  the real quotient, which agrees with Python on both ints and floats.
* Python `range(start, stop, step)` with a positive step is modelled by
  `pyRange`; with step 0 Python raises, here it yields `[]` (never reached on
  validated boxes, whose point count is at least 2).
-/

namespace SphericalObjects

noncomputable section

/-- Error taxonomy for the failure modes of the module: invalid bbox format,
invalid point count in a bbox constructor, invalid point dimension in
`convert_point`, the domain error raised by `math.acos` on inputs outside
`[-1, 1]`, and the `ZeroDivisionError` raised by `r /= sqrt(1 - z*z)` when
the divisor is 0.0 (reachable at `z = -1`). -/
inductive Err where
  | invalidFormat
  | invalidPointCount
  | invalidDimension
  | domainError
  | zeroDivisionError
deriving DecidableEq

/-- Lens focal length (source line `f = 714.285714`). -/
def f : ℝ := 714.285714

/-- Principal point (source line `center = [960, 540]`). -/
def center : ℝ × ℝ := (960, 540)

/-- Field-of-view scale (source line `D = 1.082984`). -/
def D : ℝ := 1.082984

/-- `cartesian2sphere(pt)`: normalize the pixel offset by `f`, take the radius
`r = sqrt(x*x + y*y)`, normalize `(x, y)` to a unit direction when `r != 0`,
scale `r` by `D`, and return `(x*sin(r*D), y*sin(r*D), cos(r*D))`. -/
def cartesian2sphere (pt : ℝ × ℝ) : ℝ × ℝ × ℝ :=
  let x := (pt.1 - center.1) / f
  let y := (pt.2 - center.2) / f
  let r := Real.sqrt (x * x + y * y)
  let xy := if r ≠ 0 then (x / r, y / r) else (x, y)
  let r := r * D
  let sin_theta := Real.sin r
  (xy.1 * sin_theta, xy.2 * sin_theta, Real.cos r)

/-- `sphere2cartesian(pt)`: `r = acos(pt[2]) / D`, divided further by
`sqrt(1 - pt[2]^2)` when `pt[2] != 1`, then reprojected to pixel space.
`math.acos` raises a domain error for inputs outside `[-1, 1]`, modelled by
the leading guard; the float division `r /= sqrt(1 - pt[2]*pt[2])` raises
`ZeroDivisionError` when the divisor is 0.0 (which inside the guard and the
`pt[2] != 1` branch happens exactly at `pt[2] = -1`), modelled by the inner
guard on the divisor. -/
def sphere2cartesian (pt : ℝ × ℝ × ℝ) : Except Err (ℝ × ℝ) :=
  if pt.2.2 < -1 ∨ 1 < pt.2.2 then .error .domainError
  else
    let r := Real.arccos pt.2.2
    let r := r / D
    if pt.2.2 ≠ 1 then
      if Real.sqrt (1 - pt.2.2 * pt.2.2) = 0 then .error .zeroDivisionError
      else
        let r := r / Real.sqrt (1 - pt.2.2 * pt.2.2)
        .ok (r * pt.1 * f + center.1, r * pt.2.1 * f + center.2)
    else .ok (r * pt.1 * f + center.1, r * pt.2.1 * f + center.2)

/-- `convert_point(point)`: dispatch on the length of the point; 2 coordinates
go through the forward transform, 3 through the inverse, anything else raises
`ValueError` ("Expected point to be 2 or 3D"). -/
def convert_point (point : List ℝ) : Except Err (List ℝ) :=
  if point.length = 2 then
    let s := cartesian2sphere (point.getD 0 0, point.getD 1 0)
    .ok [s.1, s.2.1, s.2.2]
  else if point.length = 3 then
    (sphere2cartesian (point.getD 0 0, point.getD 1 0, point.getD 2 0)).map
      (fun q => [q.1, q.2])
  else .error .invalidDimension

/-- A cartesian bounding box: an ordered list of 2D points plus a format tag. -/
structure CartesianBbox where
  points : List (ℝ × ℝ)
  fmt : String

/-- `CartesianBbox.__init__`: asserts, in order, that the format is one of
`xyxy`, `xywh`, `cxcywh`, that there are at least 2 points, and that the
point count is even. -/
def mkCartesianBbox (points : List (ℝ × ℝ)) (fmt : String) :
    Except Err CartesianBbox :=
  if fmt ∉ (["xyxy", "xywh", "cxcywh"] : List String) then .error .invalidFormat
  else if ¬ 2 ≤ points.length then .error .invalidPointCount
  else if ¬ points.length % 2 = 0 then .error .invalidPointCount
  else .ok ⟨points, fmt⟩

/-- Python `range(start, stop, step)` for a nonnegative step: the indices
`start + k*step` for `k < ⌈(stop - start) / step⌉`. Python raises on step 0;
that case yields `[]` here and is never reached from validated boxes. -/
def pyRange (start stop step : ℕ) : List ℕ :=
  if step = 0 then []
  else (List.range ((stop - start + step - 1) / step)).map fun i => start + i * step

/-- `CartesianBbox._from_xywh_to_xyxy`: bottom-right corner is the top-left
corner plus the width/height point. -/
def from_xywh_to_xyxy (p q : ℝ × ℝ) : List (ℝ × ℝ) :=
  [(p.1, p.2), (p.1 + q.1, p.2 + q.2)]

/-- `CartesianBbox._from_cxcywh_to_xyxy`: top-left corner is the center minus
the floor-divided half extent (`cx - w//2`, `cy - h//2`), bottom-right corner
is the top-left corner plus the width/height point. -/
def from_cxcywh_to_xyxy (p q : ℝ × ℝ) : List (ℝ × ℝ) :=
  let x1 : ℝ := p.1 - (⌊q.1 / 2⌋ : ℤ)
  let y1 : ℝ := p.2 - (⌊q.2 / 2⌋ : ℤ)
  [(x1, y1), (x1 + q.1, y1 + q.2)]

/-- `CartesianBbox.get_points_as_xyxy`: pass through for `xyxy`; for `xywh`
and `cxcywh`, rebuild the point list by looping `for idx in
range(0, 2, len(self.points))` over pairs `(points[idx], points[idx+1])` and
concatenating the per-pair conversions. The loop bounds are transcribed
exactly as in the source (stop 2, step `len(points)`). -/
def get_points_as_xyxy (b : CartesianBbox) : List (ℝ × ℝ) :=
  let points := b.points
  let points :=
    if b.fmt = "xywh" then
      (pyRange 0 2 b.points.length).foldl
        (fun acc idx =>
          acc ++ from_xywh_to_xyxy (b.points.getD idx (0, 0))
            (b.points.getD (idx + 1) (0, 0))) []
    else points
  let points :=
    if b.fmt = "cxcywh" then
      (pyRange 0 2 b.points.length).foldl
        (fun acc idx =>
          acc ++ from_cxcywh_to_xyxy (b.points.getD idx (0, 0))
            (b.points.getD (idx + 1) (0, 0))) []
    else points
  points

/-- A spherical bounding box: an ordered list of 3D points. -/
structure SphericalBbox where
  points : List (ℝ × ℝ × ℝ)

/-- `SphericalBbox.__init__`: asserts at least 2 points and an even count. -/
def mkSphericalBbox (points : List (ℝ × ℝ × ℝ)) : Except Err SphericalBbox :=
  if ¬ 2 ≤ points.length then .error .invalidPointCount
  else if ¬ points.length % 2 = 0 then .error .invalidPointCount
  else .ok ⟨points⟩

/-- `bbox_to_spherical(cartesian)`: normalize to xyxy, push every resulting
2D point through `convert_point` (which dispatches to `cartesian2sphere`
because every point has exactly two coordinates), and collect the results
into a `SphericalBbox`. -/
def bbox_to_spherical (b : CartesianBbox) : Except Err SphericalBbox :=
  let cartesian_points := get_points_as_xyxy b
  let spherical_points := cartesian_points.map fun p => cartesian2sphere p
  mkSphericalBbox spherical_points

/-- State-passing transcription of `get_points_as_xyxy` for the frame claim:
the returned `CartesianBbox` is the state of `self` after the call. The body
only reads `self.points` / `self.fmt` and rebinds the local `points`, so the
final state is rebuilt from the unassigned fields. -/
def get_points_as_xyxyS (self : CartesianBbox) :
    CartesianBbox × List (ℝ × ℝ) :=
  let points := self.points
  let points :=
    if self.fmt = "xywh" then
      (pyRange 0 2 self.points.length).foldl
        (fun acc idx =>
          acc ++ from_xywh_to_xyxy (self.points.getD idx (0, 0))
            (self.points.getD (idx + 1) (0, 0))) []
    else points
  let points :=
    if self.fmt = "cxcywh" then
      (pyRange 0 2 self.points.length).foldl
        (fun acc idx =>
          acc ++ from_cxcywh_to_xyxy (self.points.getD idx (0, 0))
            (self.points.getD (idx + 1) (0, 0))) []
    else points
  (⟨self.points, self.fmt⟩, points)

/-- State-passing transcription of `bbox_to_spherical` for the frame claim:
the returned `CartesianBbox` is the state of the argument after the call. -/
def bbox_to_sphericalS (b : CartesianBbox) :
    CartesianBbox × Except Err SphericalBbox :=
  let st := get_points_as_xyxyS b
  (st.1, mkSphericalBbox (st.2.map fun p => cartesian2sphere p))

end

lemma range_one : List.range 1 = [0] := by decide

lemma f_pos : (0 : ℝ) < f := by norm_num [f]

lemma f_ne : (f : ℝ) ≠ 0 := ne_of_gt f_pos

lemma D_pos : (0 : ℝ) < D := by norm_num [D]

lemma D_ne : (D : ℝ) ≠ 0 := ne_of_gt D_pos

lemma D_lt_pi : (D : ℝ) < Real.pi := by
  have h3 : (3 : ℝ) < Real.pi := Real.pi_gt_three
  have : (D : ℝ) < 3 := by norm_num [D]
  linarith

/-- Claim C1. The claim states that `get_points_as_xyxy` converts every
consecutive pair of a multi-pair box, returning as many points as the input.
The source loop `range(0, 2, len(points))` has stop and step swapped, so on a
4-point `cxcywh` box only the first pair is converted: the output is the
normalization of the first pair alone and has 2 points rather than 4. -/
theorem get_points_as_xyxy_multibox_only_first_pair :
    get_points_as_xyxy ⟨[(1, 1), (4, 4), (10, 10), (6, 6)], "cxcywh"⟩ =
      [(-1, -1), (3, 3)] ∧
    (get_points_as_xyxy
      ⟨[((1 : ℝ), (1 : ℝ)), (4, 4), (10, 10), (6, 6)], "cxcywh"⟩).length ≠ 4 := by
  have hfloor : (⌊(4 : ℝ) / 2⌋ : ℤ) = 2 := by norm_num
  constructor
  · simp [get_points_as_xyxy, pyRange, from_cxcywh_to_xyxy, List.getD, hfloor,
      range_one]
    norm_num
  · simp [get_points_as_xyxy, pyRange, from_cxcywh_to_xyxy, List.getD,
      range_one]

/-- Claim C5. `convert_point` dispatches on the length of the input point:
2 coordinates go to the forward transform `cartesian2sphere`, 3 coordinates
go to the inverse transform `sphere2cartesian`, and every other length fails
with the invalid-dimension error. -/
theorem convert_point_dispatch :
    (∀ a b : ℝ, convert_point [a, b] =
      .ok [(cartesian2sphere (a, b)).1, (cartesian2sphere (a, b)).2.1,
           (cartesian2sphere (a, b)).2.2]) ∧
    (∀ a b c : ℝ, convert_point [a, b, c] =
      (sphere2cartesian (a, b, c)).map fun q => [q.1, q.2]) ∧
    (∀ p : List ℝ, p.length ≠ 2 → p.length ≠ 3 →
      convert_point p = .error .invalidDimension) := by
  refine ⟨fun a b => ?_, fun a b c => ?_, fun p h2 h3 => ?_⟩
  · simp [convert_point]
  · simp [convert_point]
  · simp [convert_point, h2, h3]

/-- Witness for claim C5 at the concrete 4-dimensional point `[0, 0, 0, 0]`. -/
theorem convert_point_dispatch_witness :
    convert_point [0, 0, 0, 0] = .error .invalidDimension :=
  convert_point_dispatch.2.2 [0, 0, 0, 0] (by simp) (by simp)

/-- Claim C6. The `CartesianBbox` constructor rejects unrecognized formats
with the invalid-format error; for a recognized format it rejects point lists
of fewer than 2 points or of odd count with the invalid-point-count error
(the format assertion runs first, so the count errors are observed for
recognized formats); the `SphericalBbox` constructor enforces the same count
invariants. -/
theorem bbox_construction_validation :
    (∀ (pts : List (ℝ × ℝ)) (fmt : String),
      fmt ∉ (["xyxy", "xywh", "cxcywh"] : List String) →
      mkCartesianBbox pts fmt = .error .invalidFormat) ∧
    (∀ (pts : List (ℝ × ℝ)) (fmt : String),
      fmt ∈ (["xyxy", "xywh", "cxcywh"] : List String) →
      pts.length < 2 ∨ pts.length % 2 ≠ 0 →
      mkCartesianBbox pts fmt = .error .invalidPointCount) ∧
    (∀ pts : List (ℝ × ℝ × ℝ),
      pts.length < 2 ∨ pts.length % 2 ≠ 0 →
      mkSphericalBbox pts = .error .invalidPointCount) := by
  refine ⟨fun pts fmt h => ?_, fun pts fmt hf hc => ?_, fun pts hc => ?_⟩
  · simp only [mkCartesianBbox, if_pos h]
  · unfold mkCartesianBbox
    rw [if_neg (by simp [hf])]
    split_ifs with h1 h2 <;> first | rfl | omega
  · unfold mkSphericalBbox
    split_ifs with h1 h2 <;> first | rfl | omega

/-- Witness for claim C6: a 1-point box with a bogus format fails with the
invalid-format error, a 1-point box with a recognized format and a 1-point
spherical box fail with the invalid-point-count error. -/
theorem bbox_construction_validation_witness :
    mkCartesianBbox [((0 : ℝ), (0 : ℝ))] "bogus" = .error .invalidFormat ∧
    mkCartesianBbox [((0 : ℝ), (0 : ℝ))] "xyxy" = .error .invalidPointCount ∧
    mkSphericalBbox [((0 : ℝ), (0 : ℝ), (0 : ℝ))] = .error .invalidPointCount :=
  ⟨bbox_construction_validation.1 _ _ (by decide),
   bbox_construction_validation.2.1 _ _ (by decide) (Or.inl (by simp)),
   bbox_construction_validation.2.2 _ (Or.inl (by simp))⟩

/-- Claim C7. For every 3D input whose z-coordinate lies outside `[-1, 1]`,
`sphere2cartesian` fails with the domain error (in the source, `math.acos`
raises `ValueError: math domain error` rather than returning NaN). -/
theorem sphere2cartesian_domain_error (p : ℝ × ℝ × ℝ)
    (h : p.2.2 < -1 ∨ 1 < p.2.2) :
    sphere2cartesian p = .error .domainError := by
  unfold sphere2cartesian
  rw [if_pos h]

/-- Witness for claim C7 at the concrete input `(0, 0, 2)`. -/
theorem sphere2cartesian_domain_error_witness :
    sphere2cartesian (0, 0, 2) = .error .domainError :=
  sphere2cartesian_domain_error (0, 0, 2) (Or.inr (by norm_num))

/-- Claim C10. For every 3D input with z-coordinate exactly 1,
`sphere2cartesian` returns exactly the principal point `(960, 540)`,
regardless of the x and y coordinates (the radial scale `acos(1)/D` is 0). -/
theorem sphere2cartesian_z_one_returns_center (sx sy : ℝ) :
    sphere2cartesian (sx, sy, 1) = .ok (960, 540) := by
  norm_num [sphere2cartesian, center, Real.arccos_one]

/-- Claim C8. A box given as xywh `(10,10),(5,5)` and the equivalent cxcywh
`(12,12),(5,5)` normalize to the same xyxy corners `(10,10)-(15,15)`; in
general a 2-point xywh box normalizes to top-left and top-left plus extent,
and a 2-point cxcywh box normalizes to center minus the floor-divided half
extent and that corner plus the extent. -/
theorem format_equivalence :
    get_points_as_xyxy ⟨[(10, 10), (5, 5)], "xywh"⟩ = [(10, 10), (15, 15)] ∧
    get_points_as_xyxy ⟨[(12, 12), (5, 5)], "cxcywh"⟩ = [(10, 10), (15, 15)] ∧
    (∀ x y w h : ℝ, get_points_as_xyxy ⟨[(x, y), (w, h)], "xywh"⟩ =
      [(x, y), (x + w, y + h)]) ∧
    (∀ a b w h : ℝ, get_points_as_xyxy ⟨[(a, b), (w, h)], "cxcywh"⟩ =
      [(a - (⌊w / 2⌋ : ℤ), b - (⌊h / 2⌋ : ℤ)),
       (a - (⌊w / 2⌋ : ℤ) + w, b - (⌊h / 2⌋ : ℤ) + h)]) := by
  have hfloor : (⌊(5 : ℝ) / 2⌋ : ℤ) = 2 := by norm_num
  refine ⟨?_, ?_, fun x y w h => ?_, fun a b w h => ?_⟩
  · simp [get_points_as_xyxy, pyRange, from_xywh_to_xyxy, List.getD,
      range_one]
    norm_num
  · simp [get_points_as_xyxy, pyRange, from_cxcywh_to_xyxy, List.getD, hfloor,
      range_one]
    norm_num
  · simp [get_points_as_xyxy, pyRange, from_xywh_to_xyxy, List.getD,
      range_one]
  · simp [get_points_as_xyxy, pyRange, from_cxcywh_to_xyxy, List.getD,
      range_one]

lemma cartesian2sphere_at_center : cartesian2sphere (960, 540) = (0, 0, 1) := by
  norm_num [cartesian2sphere, center, Real.sqrt_zero, Real.sin_zero, Real.cos_zero]

lemma sphere2cartesian_of_z_one (sx sy : ℝ) :
    sphere2cartesian (sx, sy, 1) = .ok (960, 540) := by
  norm_num [sphere2cartesian, center, Real.arccos_one]

lemma sphere2cartesian_of_z_neg_one (sx sy : ℝ) :
    sphere2cartesian (sx, sy, -1) = .error .zeroDivisionError := by
  norm_num [sphere2cartesian, center, Real.sqrt_zero]

lemma cartesian2sphere_of_sqrt_zero (px py : ℝ)
    (hr0 : Real.sqrt ((px - 960) / f * ((px - 960) / f) +
      (py - 540) / f * ((py - 540) / f)) = 0) :
    cartesian2sphere (px, py) = (0, 0, 1) := by
  simp [cartesian2sphere, center, hr0, Real.sin_zero, Real.cos_zero]

lemma sqrt_zero_coords (px py : ℝ)
    (hr0 : Real.sqrt ((px - 960) / f * ((px - 960) / f) +
      (py - 540) / f * ((py - 540) / f)) = 0) :
    px = 960 ∧ py = 540 := by
  have hnn : (0 : ℝ) ≤ (px - 960) / f * ((px - 960) / f) +
      (py - 540) / f * ((py - 540) / f) := by
    have h1 := mul_self_nonneg ((px - 960) / f)
    have h2 := mul_self_nonneg ((py - 540) / f)
    linarith
  have h0 := (Real.sqrt_eq_zero hnn).mp hr0
  have h1 := mul_self_add_mul_self_eq_zero.mp h0
  have hx := (div_eq_zero_iff.mp h1.1).resolve_right f_ne
  have hy := (div_eq_zero_iff.mp h1.2).resolve_right f_ne
  constructor <;> linarith

lemma cartesian2sphere_expand (px py : ℝ)
    (hr0 : Real.sqrt ((px - 960) / f * ((px - 960) / f) +
      (py - 540) / f * ((py - 540) / f)) ≠ 0) :
    cartesian2sphere (px, py) =
      ((px - 960) / f / Real.sqrt ((px - 960) / f * ((px - 960) / f) +
          (py - 540) / f * ((py - 540) / f)) *
        Real.sin (Real.sqrt ((px - 960) / f * ((px - 960) / f) +
          (py - 540) / f * ((py - 540) / f)) * D),
       (py - 540) / f / Real.sqrt ((px - 960) / f * ((px - 960) / f) +
          (py - 540) / f * ((py - 540) / f)) *
        Real.sin (Real.sqrt ((px - 960) / f * ((px - 960) / f) +
          (py - 540) / f * ((py - 540) / f)) * D),
       Real.cos (Real.sqrt ((px - 960) / f * ((px - 960) / f) +
          (py - 540) / f * ((py - 540) / f)) * D)) := by
  simp [cartesian2sphere, center, hr0]

lemma sqrt_one_sub_cos_mul_self (t : ℝ) (h0 : 0 ≤ t) (h1 : t ≤ Real.pi) :
    Real.sqrt (1 - Real.cos t * Real.cos t) = Real.sin t := by
  have hpyth := Real.sin_sq_add_cos_sq t
  have h2 : 1 - Real.cos t * Real.cos t = Real.sin t * Real.sin t := by nlinarith
  rw [h2, Real.sqrt_mul_self (Real.sin_nonneg_of_nonneg_of_le_pi h0 h1)]

lemma cos_ne_one_of_mem_Ioo_pi (t : ℝ) (h0 : 0 < t) (h1 : t < Real.pi) :
    Real.cos t ≠ 1 := by
  intro hc
  have hpi := Real.pi_pos
  have := (Real.cos_eq_one_iff_of_lt_of_lt (x := t) (by linarith) (by linarith)).mp hc
  linarith

lemma inverse_of_forward (x y R : ℝ) (hR : R = Real.sqrt (x * x + y * y))
    (hr0 : R ≠ 0) (hθ : R * D < Real.pi) :
    sphere2cartesian (x / R * Real.sin (R * D), y / R * Real.sin (R * D),
      Real.cos (R * D)) = .ok (x * f + 960, y * f + 540) := by
  have hRpos : 0 < R := (hR ▸ Real.sqrt_nonneg _).lt_of_ne (Ne.symm hr0)
  have hθpos : 0 < R * D := mul_pos hRpos D_pos
  have hguard : ¬ (Real.cos (R * D) < -1 ∨ 1 < Real.cos (R * D)) := by
    push_neg
    exact ⟨Real.neg_one_le_cos _, Real.cos_le_one _⟩
  have hsinpos := Real.sin_pos_of_pos_of_lt_pi hθpos hθ
  simp only [sphere2cartesian]
  rw [if_neg hguard, Real.arccos_cos hθpos.le hθ.le,
    if_pos (cos_ne_one_of_mem_Ioo_pi _ hθpos hθ),
    sqrt_one_sub_cos_mul_self _ hθpos.le hθ.le,
    if_neg (ne_of_gt hsinpos)]
  simp only [center]
  refine congrArg Except.ok (Prod.ext ?_ ?_) <;>
    · field_simp [hr0, D_ne, ne_of_gt hsinpos]
      ring

/-- Claim C2. For every pixel point whose normalized radius
`r = sqrt(((px-cx)/f)^2 + ((py-cy)/f)^2)` satisfies `r*D < π`, the composite
`sphere2cartesian (cartesian2sphere p)` succeeds and returns `p` within
`1e-6` absolute tolerance per coordinate (over the reals the round trip is in
fact exact, so the tolerance holds everywhere including `r = 0`). -/
theorem roundtrip_in_fov (px py : ℝ)
    (h : Real.sqrt (((px - 960) / f) ^ 2 + ((py - 540) / f) ^ 2) * D <
      Real.pi) :
    ∃ q : ℝ × ℝ, sphere2cartesian (cartesian2sphere (px, py)) = .ok q ∧
      |q.1 - px| ≤ 1e-6 ∧ |q.2 - py| ≤ 1e-6 := by
  have h' : Real.sqrt ((px - 960) / f * ((px - 960) / f) +
      (py - 540) / f * ((py - 540) / f)) * D < Real.pi := by
    rw [show (px - 960) / f * ((px - 960) / f) +
        (py - 540) / f * ((py - 540) / f) =
        ((px - 960) / f) ^ 2 + ((py - 540) / f) ^ 2 by ring]
    exact h
  refine ⟨(px, py), ?_, by norm_num, by norm_num⟩
  by_cases hr0 : Real.sqrt ((px - 960) / f * ((px - 960) / f) +
      (py - 540) / f * ((py - 540) / f)) = 0
  · obtain ⟨hpx, hpy⟩ := sqrt_zero_coords px py hr0
    subst hpx hpy
    rw [cartesian2sphere_at_center, sphere2cartesian_of_z_one]
  · rw [cartesian2sphere_expand px py hr0,
      inverse_of_forward _ _ _ rfl hr0 h']
    have hpx : (px - 960) / f * f + 960 = px := by
      rw [div_mul_cancel₀ _ f_ne]
      ring
    have hpy : (py - 540) / f * f + 540 = py := by
      rw [div_mul_cancel₀ _ f_ne]
      ring
    rw [hpx, hpy]

/-- Witness for claim C2 at the principal point `(960, 540)`, whose
normalized radius is 0, so `r·D = 0 < π`. -/
theorem roundtrip_in_fov_witness :
    ∃ q : ℝ × ℝ, sphere2cartesian (cartesian2sphere (960, 540)) = .ok q ∧
      |q.1 - 960| ≤ 1e-6 ∧ |q.2 - 540| ≤ 1e-6 :=
  roundtrip_in_fov 960 540 (by
    rw [show (((960 : ℝ) - 960) / f) ^ 2 + (((540 : ℝ) - 540) / f) ^ 2 = 0 by
      norm_num]
    rw [Real.sqrt_zero, zero_mul]
    exact Real.pi_pos)

/-- Claim C3. For every real 2D pixel input, the output of `cartesian2sphere`
lies on the unit sphere: `|x² + y² + z² - 1| < 1e-9` (over the reals the sum
of squares is exactly 1). -/
theorem cartesian2sphere_unit_sphere (px py : ℝ) :
    |(cartesian2sphere (px, py)).1 ^ 2 + (cartesian2sphere (px, py)).2.1 ^ 2 +
      (cartesian2sphere (px, py)).2.2 ^ 2 - 1| < 1e-9 := by
  have hexact : (cartesian2sphere (px, py)).1 ^ 2 +
      (cartesian2sphere (px, py)).2.1 ^ 2 +
      (cartesian2sphere (px, py)).2.2 ^ 2 = 1 := by
    by_cases hr0 : Real.sqrt ((px - 960) / f * ((px - 960) / f) +
        (py - 540) / f * ((py - 540) / f)) = 0
    · rw [cartesian2sphere_of_sqrt_zero px py hr0]
      norm_num
    · rw [cartesian2sphere_expand px py hr0]
      dsimp only
      set A := (px - 960) / f with hA
      set B := (py - 540) / f with hB
      set S := Real.sqrt (A * A + B * B) with hS
      have hnn : (0 : ℝ) ≤ A * A + B * B := by
        have h1 := mul_self_nonneg A
        have h2 := mul_self_nonneg B
        linarith
      have hsq : S ^ 2 = A * A + B * B := Real.sq_sqrt hnn
      have hSne : S ≠ 0 := hr0
      have hpyth := Real.sin_sq_add_cos_sq (S * D)
      have expand : (A / S * Real.sin (S * D)) ^ 2 +
          (B / S * Real.sin (S * D)) ^ 2 + Real.cos (S * D) ^ 2 =
          (A * A + B * B) / S ^ 2 * Real.sin (S * D) ^ 2 +
          Real.cos (S * D) ^ 2 := by
        ring
      rw [expand, ← hsq, div_self (pow_ne_zero 2 hSne), one_mul]
      exact hpyth
  rw [hexact]
  norm_num

lemma cartesian2sphere_z (px py : ℝ) :
    (cartesian2sphere (px, py)).2.2 =
      Real.cos (Real.sqrt ((px - 960) / f * ((px - 960) / f) +
        (py - 540) / f * ((py - 540) / f)) * D) := by
  simp [cartesian2sphere, center]

/-- Claim C4. `cartesian2sphere` maps the principal point `(960, 540)` to
exactly `(0, 0, 1)`; and `bbox_to_spherical` on the xyxy box
`[(960,540), (1100,600)]` returns a `SphericalBbox` whose first point is
exactly `(0, 0, 1)` and whose second point lies at polar angle `θ = D·r` with
`r = sqrt(((1100-960)/f)² + ((600-540)/f)²)`. -/
theorem pole_and_end_to_end :
    cartesian2sphere (960, 540) = (0, 0, 1) ∧
    ∃ S : SphericalBbox,
      bbox_to_spherical ⟨[(960, 540), (1100, 600)], "xyxy"⟩ = .ok S ∧
      S.points.getD 0 (0, 0, 0) = (0, 0, 1) ∧
      Real.arccos (S.points.getD 1 (0, 0, 0)).2.2 =
        D * Real.sqrt ((((1100 : ℝ) - 960) / f) ^ 2 +
          (((600 : ℝ) - 540) / f) ^ 2) := by
  have harc : Real.arccos ((cartesian2sphere (1100, 600)).2.2) =
      D * Real.sqrt ((((1100 : ℝ) - 960) / f) ^ 2 +
        (((600 : ℝ) - 540) / f) ^ 2) := by
    rw [cartesian2sphere_z]
    set a : ℝ := ((1100 : ℝ) - 960) / f * (((1100 : ℝ) - 960) / f) +
      ((600 : ℝ) - 540) / f * (((600 : ℝ) - 540) / f) with hadef
    have ha : a ≤ 1 := by
      rw [hadef]
      norm_num [f]
    have hR1 : Real.sqrt a ≤ 1 := by
      calc Real.sqrt a ≤ Real.sqrt 1 := Real.sqrt_le_sqrt ha
        _ = 1 := Real.sqrt_one
    have h0 : 0 ≤ Real.sqrt a * D := mul_nonneg (Real.sqrt_nonneg _) D_pos.le
    have h1 : Real.sqrt a * D ≤ Real.pi := by
      have hm : Real.sqrt a * D ≤ 1 * D :=
        mul_le_mul_of_nonneg_right hR1 D_pos.le
      have hp := D_lt_pi
      linarith
    rw [Real.arccos_cos h0 h1, mul_comm]
    congr 1
    rw [hadef]
    congr 1
    ring
  refine ⟨cartesian2sphere_at_center,
    ⟨[cartesian2sphere (960, 540), cartesian2sphere (1100, 600)]⟩, ?_, ?_, ?_⟩
  · simp [bbox_to_spherical, get_points_as_xyxy, mkSphericalBbox]
  · simp [cartesian2sphere_at_center]
  · simpa using harc

/-- Claim C9. Neither `get_points_as_xyxy` nor `bbox_to_spherical` mutates
the box it operates on: in the state-passing transcriptions the post-state of
the box equals its pre-state (points and format tag unchanged), and the
returned values agree with the pure functions. -/
theorem bbox_operations_no_mutation (b : CartesianBbox) :
    (get_points_as_xyxyS b).1 = b ∧
    (get_points_as_xyxyS b).2 = get_points_as_xyxy b ∧
    (bbox_to_sphericalS b).1 = b ∧
    (bbox_to_sphericalS b).2 = bbox_to_spherical b := by
  obtain ⟨pts, tag⟩ := b
  exact ⟨rfl, rfl, rfl, rfl⟩

/-- Witness for claim C3 at the concrete pixel `(0, 0)`. -/
theorem cartesian2sphere_unit_sphere_witness :
    |(cartesian2sphere (0, 0)).1 ^ 2 + (cartesian2sphere (0, 0)).2.1 ^ 2 +
      (cartesian2sphere (0, 0)).2.2 ^ 2 - 1| < 1e-9 :=
  cartesian2sphere_unit_sphere 0 0

/-- Witness for claim C8's universally quantified clause at the concrete
xywh box `(3,4),(7,9)`. -/
theorem format_equivalence_witness :
    get_points_as_xyxy ⟨[((3 : ℝ), (4 : ℝ)), (7, 9)], "xywh"⟩ =
      [(3, 4), (3 + 7, 4 + 9)] :=
  format_equivalence.2.2.1 3 4 7 9

/-- Witness for claim C9 at a concrete 2-point xyxy box. -/
theorem bbox_operations_no_mutation_witness :
    (get_points_as_xyxyS ⟨[(0, 0), (1, 1)], "xyxy"⟩).1 =
      ⟨[(0, 0), (1, 1)], "xyxy"⟩ ∧
    (get_points_as_xyxyS ⟨[(0, 0), (1, 1)], "xyxy"⟩).2 =
      get_points_as_xyxy ⟨[(0, 0), (1, 1)], "xyxy"⟩ ∧
    (bbox_to_sphericalS ⟨[(0, 0), (1, 1)], "xyxy"⟩).1 =
      ⟨[(0, 0), (1, 1)], "xyxy"⟩ ∧
    (bbox_to_sphericalS ⟨[(0, 0), (1, 1)], "xyxy"⟩).2 =
      bbox_to_spherical ⟨[(0, 0), (1, 1)], "xyxy"⟩ :=
  bbox_operations_no_mutation ⟨[(0, 0), (1, 1)], "xyxy"⟩

/-- Witness for claim C10 at the concrete input `(5, 7, 1)`. -/
theorem sphere2cartesian_z_one_returns_center_witness :
    sphere2cartesian (5, 7, 1) = .ok (960, 540) :=
  sphere2cartesian_z_one_returns_center 5 7

end SphericalObjects
